import Mathlib

/-!
Shallow embedding of the user-record core of `projeto-solar`.

Source files embedded here:
* `src/models/User.ts` (shipped as `src/unnamed/part_001`): the SQLite-backed
  `User` model (class fields, `validate`, `toPublicJSON`, `toListJSON`, `save`,
  and the static repository methods `findAll`/`findById`/`findByEmail`/
  `emailExists`/`create`/`delete`/`count`).
* `src/routes/userRoutes.ts` (bottom half): the in-memory list-backed `User`
  model variant, kept in the `MemUser` namespace.
* `src/controllers/UserController.ts`: the `update` handler.
* `src/config/database.ts`: table schema (`id INTEGER PRIMARY KEY
  AUTOINCREMENT`, `is_active INTEGER` 0/1) — modelled by an explicit row list
  plus a fresh-id counter.

Modelling conventions:
* JavaScript strings are modelled as character lists (`Str`), so that every
  operation (trim, lower-casing, the email regex) is a computable function
  the kernel can evaluate; `str` converts a Lean string literal.
* JavaScript numbers that flow through the `age` field are modelled by `JNum`:
  either `nan` or an exact rational.  JS comparisons with `NaN` are false,
  which `jlt`/`jgt` reproduce.
* Timestamps (`new Date().toISOString()`) are an abstract clock: each
  state-changing operation receives the current instant as a `Nat` parameter.
* `LOWER(...)` / `.toLowerCase()` are modelled by ASCII lower-casing.
* The `UNIQUE` column constraint on `email` is not modelled: every write the
  embedded operations perform is guarded by `emailExists`, which is strictly
  broader (case-insensitive, all rows), so the constraint can never fire.
-/

/-- A JavaScript string, as a list of its characters. -/
def Str : Type := List Char

instance : DecidableEq Str := by
  unfold Str; infer_instance

instance : BEq Str := by
  unfold Str; infer_instance

instance : LawfulBEq Str := by
  unfold Str; infer_instance

instance : Append Str := by
  unfold Str; infer_instance

instance : Repr Str := by
  unfold Str; infer_instance

/-- Embed a Lean string literal as a model string. -/
def str (s : String) : Str := s.toList

/-- A JavaScript number as it occurs in the `age` field: `NaN` or a rational. -/
inductive JNum where
  | nan : JNum
  | num (q : ℚ) : JNum
  deriving DecidableEq, Repr

/-- JS `<` on numbers: any comparison involving `NaN` is false. -/
def jlt : JNum → JNum → Bool
  | JNum.num a, JNum.num b => a < b
  | _, _ => false

/-- JS `>` on numbers: any comparison involving `NaN` is false. -/
def jgt : JNum → JNum → Bool
  | JNum.num a, JNum.num b => b < a
  | _, _ => false

/-- JS `x || null` on an optional string: the empty string is falsy. -/
def jsOrNone : Option Str → Option Str
  | some s => if s = [] then none else some s
  | none => none

/-- JS `x || null` on an optional number: `0` and `NaN` are falsy. -/
def jsNumOrNone : Option JNum → Option JNum
  | some (JNum.num q) => if q = 0 then none else some (JNum.num q)
  | some JNum.nan => none
  | none => none

/-- ASCII lower-casing of one character (the fragment of JS `.toLowerCase()`
and SQL `LOWER(...)` exercised by the repository). -/
def charLower (c : Char) : Char :=
  if 'A' ≤ c ∧ c ≤ 'Z' then Char.ofNat (c.toNat + 32) else c

/-- `LOWER(...)` / `.toLowerCase()`. -/
def sLower (s : Str) : Str := s.map charLower

/-- Characters matched by the regex class `\s` (ASCII part). -/
def jsWhitespace (c : Char) : Bool :=
  c == ' ' || c == '\t' || c == '\n' || c == '\r' || c == '\x0b' || c == '\x0c'

/-- JS `String.prototype.trim()`. -/
def trimS (s : Str) : Str :=
  ((s.dropWhile jsWhitespace).reverse.dropWhile jsWhitespace).reverse

/-- All characters drawn from the regex class `[^\s@]`. -/
def emailAtomChars (s : Str) : Bool :=
  s.all fun c => !(jsWhitespace c || c == '@')

/-- The right half of the email regex needs a `.` that is neither the first
nor the last character (`[^\s@]+\.[^\s@]+`, where `[^\s@]` includes `.`). -/
def hasInteriorDot (s : Str) : Bool :=
  match s with
  | [] => false
  | _ :: t => t.dropLast.contains '.'

/-- The test `/^[^\s@]+@[^\s@]+\.[^\s@]+$/.test(s)`: exactly one `@`, a
non-empty `@`-free, whitespace-free part on each side, and an interior dot on
the right. -/
def emailRegexTest (s : Str) : Bool :=
  match List.splitOn '@' s with
  | [l, r] => !l.isEmpty && emailAtomChars l && !r.isEmpty && emailAtomChars r
      && hasInteriorDot r
  | _ => false

/-- Rewrite the first element satisfying `p` (JS `findIndex` + in-place
assignment on the found element). -/
def modifyFirst (p : α → Bool) (f : α → α) : List α → List α
  | [] => []
  | x :: xs => if p x then f x :: xs else x :: modifyFirst p f xs

/-- The message "O nome é obrigatório". -/
def msgNameReq : Str := str "O nome é obrigatório"

/-- The message "O nome deve ter pelo menos 2 caracteres". -/
def msgNameLen : Str := str "O nome deve ter pelo menos 2 caracteres"

/-- The message "O email é obrigatório". -/
def msgEmailReq : Str := str "O email é obrigatório"

/-- The message "O email deve ser válido". -/
def msgEmailInvalid : Str := str "O email deve ser válido"

/-- The message "A idade deve ser um número entre 0 e 150". -/
def msgAge : Str := str "A idade deve ser um número entre 0 e 150"

/-- The message "Este email já está cadastrado". -/
def msgEmailTaken : Str := str "Este email já está cadastrado"

/-- The constructed `User` instance (`src/models/User.ts`, class fields). -/
structure UserData where
  id : Option Nat
  name : Str
  email : Str
  password : Option Str
  age : Option JNum
  is_active : Bool
  created_at : Nat
  updated_at : Nat
  deriving DecidableEq, Repr

/-- The `UserData` input interface: every field the constructor reads,
optional ones modelled with `Option`. -/
structure UserDataIn where
  id : Option Nat := none
  name : Str
  email : Str
  password : Option Str := none
  age : Option JNum := none
  is_active : Option Bool := none
  created_at : Option Nat := none
  updated_at : Option Nat := none
  deriving DecidableEq, Repr

/-- One row of the `users` table (`database.ts` schema): `is_active` is the
stored 0/1 integer. -/
structure UserRow where
  id : Nat
  name : Str
  email : Str
  password : Option Str
  age : Option JNum
  is_active : Nat
  created_at : Nat
  updated_at : Nat
  deriving DecidableEq, Repr

/-- The `UserPublic` projection (no `password` field). -/
structure UserPublic where
  id : Option Nat
  name : Str
  email : Str
  age : Option JNum
  is_active : Bool
  created_at : Nat
  updated_at : Nat
  deriving DecidableEq, Repr

/-- The `UserList` projection: `name`, `email`, `age` only. -/
structure UserList where
  name : Str
  email : Str
  age : Option JNum
  deriving DecidableEq, Repr

/-- `ValidationResult`. -/
structure ValidationResult where
  valid : Bool
  errors : List Str
  deriving DecidableEq, Repr

/-- `UserCreateInput`. -/
structure UserCreateInput where
  name : Str
  email : Str
  password : Option Str := none
  age : Option JNum := none
  deriving DecidableEq, Repr

/-- `CreateUserResult`. -/
structure CreateUserResult where
  success : Bool
  user : Option UserData := none
  errors : Option (List Str) := none
  deriving DecidableEq, Repr

/-- The SQLite database state: the `users` table rows in insertion order and
the `AUTOINCREMENT` counter (`last_insert_rowid` of the next insert). -/
structure Db where
  rows : List UserRow
  nextId : Nat
  deriving DecidableEq, Repr

/-- A freshly created database (empty table, ids start at 1). -/
def db0 : Db := { rows := [], nextId := 1 }

namespace User

/-- `constructor(data)` of the SQLite variant: `password || null`,
`age ?? null`, `is_active !== undefined ? ... : true`, timestamp defaults. -/
def new (data : UserDataIn) (now : Nat) : UserData :=
  { id := data.id
    name := data.name
    email := data.email
    password := jsOrNone data.password
    age := data.age
    is_active := data.is_active.getD true
    created_at := data.created_at.getD now
    updated_at := data.updated_at.getD now }

/-- `validate()`: accumulates the name, email and age check messages. -/
def validate (u : UserData) : ValidationResult :=
  let nameErrs :=
    if trimS u.name = [] then [msgNameReq]
    else if (trimS u.name).length < 2 then [msgNameLen]
    else []
  let emailErrs :=
    if trimS u.email = [] then [msgEmailReq]
    else if !emailRegexTest u.email then [msgEmailInvalid]
    else []
  let ageErrs :=
    match u.age with
    | none => []
    | some a => if jlt a (JNum.num 0) || jgt a (JNum.num 150) then [msgAge] else []
  let errors := nameErrs ++ emailErrs ++ ageErrs
  { valid := errors.isEmpty, errors := errors }

/-- `toPublicJSON()`: all fields except `password`.  (`this.id!` is only a
compile-time assertion in the source; the runtime value is `this.id`.) -/
def toPublicJSON (u : UserData) : UserPublic :=
  { id := u.id
    name := u.name
    email := u.email
    age := u.age
    is_active := u.is_active
    created_at := u.created_at
    updated_at := u.updated_at }

/-- `toListJSON()`: `name`, `email`, `age`. -/
def toListJSON (u : UserData) : UserList :=
  { name := u.name, email := u.email, age := u.age }

/-- `User.fromRow(row)`: row data handed to the constructor. -/
def fromRow (r : UserRow) : UserDataIn :=
  { id := some r.id
    name := r.name
    email := r.email
    password := r.password
    age := r.age
    is_active := some (r.is_active = 1)
    created_at := some r.created_at
    updated_at := some r.updated_at }

/-- `new User(User.fromRow(row))` — every field is present in the row, so the
constructor's clock argument is irrelevant. -/
def ofRow (r : UserRow) : UserData := new (fromRow r) 0

/-- The `INSERT` branch of `save()`: append a row, read back
`last_insert_rowid()` onto `this.id`. -/
def insertRow (u : UserData) (db : Db) : UserData × Db :=
  let row : UserRow :=
    { id := db.nextId
      name := u.name
      email := u.email
      password := u.password
      age := u.age
      is_active := if u.is_active then 1 else 0
      created_at := u.created_at
      updated_at := u.updated_at }
  ({ u with id := some db.nextId },
   { rows := db.rows ++ [row], nextId := db.nextId + 1 })

/-- `save()`: refresh `updated_at`; `if (this.id)` (0 is falsy) run the
`UPDATE ... WHERE id = ?` statement, else the `INSERT`. -/
def save (u0 : UserData) (now : Nat) (db : Db) : UserData × Db :=
  let u := { u0 with updated_at := now }
  match u.id with
  | some i =>
      if i = 0 then insertRow u db
      else
        (u, { db with rows := db.rows.map fun r =>
          if r.id = i then
            { r with name := u.name, email := u.email, password := u.password,
                     age := u.age, is_active := if u.is_active then 1 else 0,
                     updated_at := u.updated_at }
          else r })
  | none => insertRow u db

/-- `findAll()`: `SELECT * FROM users WHERE is_active = 1`. -/
def findAll (db : Db) : List UserData :=
  (db.rows.filter fun r => r.is_active == 1).map ofRow

/-- `findById(id)`: first row with `id = ? AND is_active = 1`. -/
def findById (id : Nat) (db : Db) : Option UserData :=
  (db.rows.find? fun r => r.id == id && r.is_active == 1).map ofRow

/-- `findByEmail(email)`: first row with `LOWER(email) = LOWER(?) AND
is_active = 1`. -/
def findByEmail (email : Str) (db : Db) : Option UserData :=
  (db.rows.find? fun r => sLower r.email == sLower email && r.is_active == 1).map ofRow

/-- `emailExists(email)`: `COUNT(*) > 0` over **all** rows with
`LOWER(email) = LOWER(?)`. -/
def emailExists (email : Str) (db : Db) : Bool :=
  db.rows.any fun r => sLower r.email == sLower email

/-- `create(data)`: construct, validate, check `emailExists`, save. -/
def create (data : UserCreateInput) (now : Nat) (db : Db) : CreateUserResult × Db :=
  let user := new { name := data.name, email := data.email,
                    password := data.password, age := data.age } now
  let validation := validate user
  if !validation.valid then
    ({ success := false, errors := some validation.errors }, db)
  else if emailExists user.email db then
    ({ success := false, errors := some [msgEmailTaken] }, db)
  else
    let (u, db') := save user now db
    ({ success := true, user := some u }, db')

/-- `delete(id)`: soft delete via `findById` + `save`. -/
def delete (id : Nat) (now : Nat) (db : Db) : Bool × Db :=
  match findById id db with
  | some u =>
      let (_, db') := save { u with is_active := false } now db
      (true, db')
  | none => (false, db)

/-- `count()`: `COUNT(*)` over active rows. -/
def count (db : Db) : Nat :=
  (db.rows.filter fun r => r.is_active == 1).length

end User

/-- The in-memory store of the `userRoutes.ts` variant: the module-level
`users` list and the `nextId` counter. -/
structure Mem where
  users : List UserData
  nextId : Nat
  deriving DecidableEq, Repr

/-- The initial module state (`users = []`, `nextId = 1`). -/
def mem0 : Mem := { users := [], nextId := 1 }

namespace MemUser

/-- `constructor(data)` of the in-memory variant: `this.id = data.id ||
nextId++` assigns an identifier at construction time (consuming the counter),
and `this.age = data.age || null` coerces falsy ages (`0`, `NaN`) to null. -/
def new (data : UserDataIn) (now : Nat) (st : Mem) : UserData × Mem :=
  let idPick : Nat × Nat :=
    match data.id with
    | some i => if i = 0 then (st.nextId, st.nextId + 1) else (i, st.nextId)
    | none => (st.nextId, st.nextId + 1)
  ({ id := some idPick.1
     name := data.name
     email := data.email
     password := jsOrNone data.password
     age := jsNumOrNone data.age
     is_active := data.is_active.getD true
     created_at := data.created_at.getD now
     updated_at := data.updated_at.getD now },
   { st with nextId := idPick.2 })

/-- `typeof this.age` for a value of the number model is always `'number'`. -/
def isNumberType (_ : JNum) : Bool := true

/-- `validate()` of the in-memory variant: identical to the SQLite one except
for the extra `typeof this.age !== 'number'` disjunct in the age check. -/
def validate (u : UserData) : ValidationResult :=
  let nameErrs :=
    if trimS u.name = [] then [msgNameReq]
    else if (trimS u.name).length < 2 then [msgNameLen]
    else []
  let emailErrs :=
    if trimS u.email = [] then [msgEmailReq]
    else if !emailRegexTest u.email then [msgEmailInvalid]
    else []
  let ageErrs :=
    match u.age with
    | none => []
    | some a =>
        if !isNumberType a || jlt a (JNum.num 0) || jgt a (JNum.num 150) then [msgAge]
        else []
  let errors := nameErrs ++ emailErrs ++ ageErrs
  { valid := errors.isEmpty, errors := errors }

/-- `toPublicJSON()` (same shape as the SQLite variant's). -/
def toPublicJSON (u : UserData) : UserPublic := User.toPublicJSON u

/-- `toListJSON()` (same shape as the SQLite variant's). -/
def toListJSON (u : UserData) : UserList := User.toListJSON u

/-- `save()`: refresh `updated_at`, then `findIndex(u => u.id === this.id)`
and either replace that slot or push. -/
def save (u0 : UserData) (now : Nat) (st : Mem) : UserData × Mem :=
  let u := { u0 with updated_at := now }
  if st.users.any (fun x => x.id == u.id) then
    (u, { st with users := modifyFirst (fun x => x.id == u.id) (fun _ => u) st.users })
  else
    (u, { st with users := st.users ++ [u] })

/-- `findAll()`: `users.filter(u => u.is_active)`. -/
def findAll (st : Mem) : List UserData :=
  st.users.filter fun u => u.is_active

/-- `findById(id)`: `users.find(u => u.id === id && u.is_active) || null`. -/
def findById (id : Nat) (st : Mem) : Option UserData :=
  st.users.find? fun u => u.id == some id && u.is_active

/-- `findByEmail(email)`: case-insensitive, active only. -/
def findByEmail (email : Str) (st : Mem) : Option UserData :=
  st.users.find? fun u => sLower u.email == sLower email && u.is_active

/-- `emailExists(email)`: `users.some(...)` over **all** stored users. -/
def emailExists (email : Str) (st : Mem) : Bool :=
  st.users.any fun u => sLower u.email == sLower email

/-- `create(data)`: note that `new User(data)` runs (and consumes an id)
before validation and the uniqueness check. -/
def create (data : UserCreateInput) (now : Nat) (st : Mem) : CreateUserResult × Mem :=
  let p := new { name := data.name, email := data.email,
                 password := data.password, age := data.age } now st
  let user := p.1
  let st1 := p.2
  let validation := validate user
  if !validation.valid then
    ({ success := false, errors := some validation.errors }, st1)
  else if emailExists user.email st1 then
    ({ success := false, errors := some [msgEmailTaken] }, st1)
  else
    let (u, st2) := save user now st1
    ({ success := true, user := some u }, st2)

/-- `delete(id)`: find the active user and mutate `is_active`/`updated_at`
in place (no `save` call in this variant). -/
def delete (id : Nat) (now : Nat) (st : Mem) : Bool × Mem :=
  if st.users.any (fun u => u.id == some id && u.is_active) then
    let users' := modifyFirst (fun u => u.id == some id && u.is_active)
      (fun u => { u with is_active := false, updated_at := now }) st.users
    (true, { st with users := users' })
  else
    (false, st)

/-- `count()`: active users. -/
def count (st : Mem) : Nat :=
  (st.users.filter fun u => u.is_active).length

end MemUser

/-- A `req.body` string field: absent key, explicit `null`, or a string. -/
inductive JStr where
  | undef : JStr
  | jsnull : JStr
  | jstr (s : Str) : JStr
  deriving DecidableEq, Repr

/-- JS truthiness of a body string field (`""`, `null`, `undefined` falsy). -/
def JStr.truthy : JStr → Bool
  | JStr.jstr s => !s.isEmpty
  | _ => false

/-- The string carried by a truthy field (only read under `truthy`). -/
def JStr.getStr : JStr → Str
  | JStr.jstr s => s
  | _ => []

/-- A `req.body` age field: absent key, explicit `null`, or a number. -/
inductive JAge where
  | undef : JAge
  | jsnull : JAge
  | num (n : JNum) : JAge
  deriving DecidableEq, Repr

/-- Truncation toward zero of a rational (what `parseInt` does to the decimal
rendering of a plain number). -/
def truncRat (q : ℚ) : ℚ := (Int.tdiv q.num q.den : ℤ)

/-- `parseInt` on the age body field: `parseInt(null)` and
`parseInt(undefined)` are `NaN`; a number is truncated toward zero. -/
def parseIntJS : JAge → JNum
  | JAge.undef => JNum.nan
  | JAge.jsnull => JNum.nan
  | JAge.num JNum.nan => JNum.nan
  | JAge.num (JNum.num q) => JNum.num (truncRat q)

/-- Outcome of the controller's `update` handler, by response shape. -/
inductive UpdResult where
  | notFound : UpdResult
  | conflict : UpdResult
  | invalid (errors : List Str) : UpdResult
  | ok (u : UserPublic) : UpdResult
  deriving DecidableEq, Repr

namespace UserController

/-- `UserController.update` (`UserController.ts`): load by id; conflict when
`email && email !== user.email && User.emailExists(email)`; apply truthy
`name`/`email` and any defined `age` (via `parseInt`); re-validate; save. -/
def update (id : Nat) (name email : JStr) (age : JAge) (now : Nat) (db : Db) :
    UpdResult × Db :=
  match User.findById id db with
  | none => (UpdResult.notFound, db)
  | some user =>
      if email.truthy && email.getStr != user.email
          && User.emailExists email.getStr db then
        (UpdResult.conflict, db)
      else
        let u1 : UserData :=
          { user with
            name := if name.truthy then name.getStr else user.name
            email := if email.truthy then email.getStr else user.email
            age := match age with
              | JAge.undef => user.age
              | a => some (parseIntJS a) }
        let validation := User.validate u1
        if !validation.valid then
          (UpdResult.invalid validation.errors, db)
        else
          (UpdResult.ok (User.toPublicJSON (User.save u1 now db).1),
           (User.save u1 now db).2)

end UserController

/-- One repository operation, as invoked through the public API. -/
inductive Op where
  | create (d : UserCreateInput) : Op
  | findAll : Op
  | findById (id : Nat) : Op
  | findByEmail (e : Str) : Op
  | emailExists (e : Str) : Op
  | delete (id : Nat) : Op
  | count : Op
  deriving DecidableEq, Repr

/-- The observable result of one operation. -/
inductive OpRes where
  | created (r : CreateUserResult) : OpRes
  | list (us : List UserData) : OpRes
  | userOpt (u : Option UserData) : OpRes
  | boolRes (b : Bool) : OpRes
  | natRes (n : Nat) : OpRes
  deriving DecidableEq, Repr

/-- Run one operation against the SQLite-backed model. -/
def SqlStep (op : Op) (now : Nat) (db : Db) : OpRes × Db :=
  match op with
  | Op.create d => let (r, db') := User.create d now db; (OpRes.created r, db')
  | Op.findAll => (OpRes.list (User.findAll db), db)
  | Op.findById i => (OpRes.userOpt (User.findById i db), db)
  | Op.findByEmail e => (OpRes.userOpt (User.findByEmail e db), db)
  | Op.emailExists e => (OpRes.boolRes (User.emailExists e db), db)
  | Op.delete i => let (b, db') := User.delete i now db; (OpRes.boolRes b, db')
  | Op.count => (OpRes.natRes (User.count db), db)

/-- Run one operation against the in-memory model. -/
def MemStep (op : Op) (now : Nat) (st : Mem) : OpRes × Mem :=
  match op with
  | Op.create d => let (r, st') := MemUser.create d now st; (OpRes.created r, st')
  | Op.findAll => (OpRes.list (MemUser.findAll st), st)
  | Op.findById i => (OpRes.userOpt (MemUser.findById i st), st)
  | Op.findByEmail e => (OpRes.userOpt (MemUser.findByEmail e st), st)
  | Op.emailExists e => (OpRes.boolRes (MemUser.emailExists e st), st)
  | Op.delete i => let (b, st') := MemUser.delete i now st; (OpRes.boolRes b, st')
  | Op.count => (OpRes.natRes (MemUser.count st), st)

/-- Run a timed trace of operations against the SQLite-backed model. -/
def SqlRun : List (Op × Nat) → Db → List OpRes × Db
  | [], db => ([], db)
  | (op, now) :: rest, db =>
      let (r, db') := SqlStep op now db
      let (rs, db'') := SqlRun rest db'
      (r :: rs, db'')

/-- Run a timed trace of operations against the in-memory model. -/
def MemRun : List (Op × Nat) → Mem → List OpRes × Mem
  | [], st => ([], st)
  | (op, now) :: rest, st =>
      let (r, st') := MemStep op now st
      let (rs, st'') := MemRun rest st'
      (r :: rs, st'')

/-- An age input on which the two constructors agree (`data.age || null` is
the identity exactly when the age is absent or a non-falsy number). -/
def goodAge : Option JNum → Bool
  | none => true
  | some (JNum.num q) => q ≠ 0
  | some JNum.nan => false

/-- A trace is benign when every `create` in it succeeds on the SQLite model
at its point of execution and carries a non-falsy age. -/
def OkTrace : List (Op × Nat) → Db → Bool
  | [], _ => true
  | (op, now) :: rest, db =>
      (match op with
       | Op.create d => goodAge d.age && (User.create d now db).1.success
       | _ => true) && OkTrace rest (SqlStep op now db).2

/-- Structural well-formedness of a database state, maintained by every
operation: ids are positive, below the counter, strictly increasing in table
order, and stored passwords are never the (falsy) empty string. -/
def Db.WF (db : Db) : Prop :=
  1 ≤ db.nextId ∧
  (∀ r ∈ db.rows, 1 ≤ r.id ∧ r.id < db.nextId) ∧
  (db.rows.map UserRow.id).Pairwise (· < ·) ∧
  (∀ r ∈ db.rows, r.password ≠ some [])

instance (db : Db) : Decidable db.WF := by
  unfold Db.WF; infer_instance

/-- Coupling between the two model variants: the in-memory list is the
row-by-row reconstruction of the table, and the id counters agree. -/
def SqlMemRel (db : Db) (st : Mem) : Prop :=
  st.users = db.rows.map User.ofRow ∧ st.nextId = db.nextId ∧ Db.WF db

/-! ### Named records, stores and inputs used in the theorems -/

/-- The candidate record `new User(data)` that `create` constructs before
validating. -/
def User.candidate (d : UserCreateInput) (now : Nat) : UserData :=
  User.new { name := d.name, email := d.email, password := d.password,
             age := d.age } now

/-- The row that a successful `create` inserts. -/
def User.insertedRow (d : UserCreateInput) (now : Nat) (db : Db) : UserRow :=
  { id := db.nextId, name := (User.candidate d now).name,
    email := (User.candidate d now).email,
    password := (User.candidate d now).password,
    age := (User.candidate d now).age, is_active := 1,
    created_at := now, updated_at := now }

/-- The record the in-memory constructor builds for a create input with a
non-falsy age, once the counter value is known. -/
def MemUser.freshUser (d : UserCreateInput) (now : Nat) (st : Mem) : UserData :=
  { id := some st.nextId, name := d.name, email := d.email,
    password := jsOrNone d.password, age := d.age, is_active := true,
    created_at := now, updated_at := now }

/-- The per-operation condition of a benign trace. -/
def OkStep (op : Op) (now : Nat) (db : Db) : Bool :=
  match op with
  | Op.create d => goodAge d.age && (User.create d now db).1.success
  | _ => true

/-- A record whose `age` is the not-a-number value (as produced e.g. by
`parseInt` on a non-numeric input). -/
def c5user : UserData :=
  { id := none, name := str "Ana", email := str "ana@test.com", password := none,
    age := some JNum.nan, is_active := true, created_at := 0, updated_at := 0 }

/-- The same record with age 30.5 (the rational 61/2, which has denominator 2,
hence is not an integer). -/
def c5userHalf : UserData := { c5user with age := some (JNum.num (mkRat 61 2)) }

/-- A single-row database used to instantiate the read-visibility theorem. -/
def c2row : UserRow :=
  { id := 1, name := str "Ana", email := str "ana@test.com", password := none,
    age := none, is_active := 1, created_at := 0, updated_at := 0 }

/-- The database holding only `c2row`. -/
def c2db : Db := { rows := [c2row], nextId := 2 }

/-- A valid create input used to instantiate the trichotomy. -/
def c3in : UserCreateInput := { name := str "Ana", email := str "ana@test.com" }

/-- A single active record whose stored email is `a@x.com`. -/
def c1row : UserRow :=
  { id := 1, name := str "Ana", email := str "a@x.com", password := none,
    age := none, is_active := 1, created_at := 0, updated_at := 0 }

/-- A soft-deleted record holding `b@y.com`. -/
def c1rowDel : UserRow :=
  { id := 2, name := str "Bob", email := str "b@y.com", password := none,
    age := none, is_active := 0, created_at := 0, updated_at := 0 }

/-- Store containing only the target record itself. -/
def c1db : Db := { rows := [c1row], nextId := 2 }

/-- Store containing the target record and one soft-deleted record. -/
def c1db2 : Db := { rows := [c1row, c1rowDel], nextId := 3 }

/-- The construction input used to exhibit the in-memory id assignment. -/
def c6din : UserDataIn := { name := str "Ana", email := str "ana@test.com" }

/-- A create input whose age is 0. -/
def c9in : UserCreateInput :=
  { name := str "Ana", email := str "ana@test.com", age := some (JNum.num 0) }

/-! ### Helper lemmas -/

lemma jsOrNone_ne_empty (p : Option Str) : jsOrNone p ≠ some [] := by
  cases p with
  | none => simp [jsOrNone]
  | some s => by_cases h : s = [] <;> simp [jsOrNone, h]

lemma jsOrNone_eq_self (p : Option Str) (h : p ≠ some []) : jsOrNone p = p := by
  cases p with
  | none => rfl
  | some s =>
      have hs : s ≠ [] := fun e => h (by rw [e])
      simp [jsOrNone, hs]

lemma jsOrNone_idem (p : Option Str) : jsOrNone (jsOrNone p) = jsOrNone p :=
  jsOrNone_eq_self _ (jsOrNone_ne_empty p)

lemma validate_errors_def (u : UserData) : (User.validate u).errors =
    (if trimS u.name = [] then [msgNameReq]
     else if (trimS u.name).length < 2 then [msgNameLen] else []) ++
    ((if trimS u.email = [] then [msgEmailReq]
      else if !emailRegexTest u.email then [msgEmailInvalid] else []) ++
     (match u.age with
      | none => []
      | some a => if jlt a (JNum.num 0) || jgt a (JNum.num 150) then [msgAge] else [])) := by
  simp [User.validate, List.append_assoc]

lemma validate_valid_iff (u : UserData) :
    (User.validate u).valid = true ↔ (User.validate u).errors = [] := by
  show ((User.validate u).errors).isEmpty = true ↔ _
  simp [List.isEmpty_iff]

lemma validate_mem_age (u : UserData) :
    msgAge ∈ (User.validate u).errors ↔
      ∃ a, u.age = some a ∧ (jlt a (JNum.num 0) || jgt a (JNum.num 150)) = true := by
  have h1 : msgAge ≠ msgNameReq := by decide
  have h2 : msgAge ≠ msgNameLen := by decide
  have h3 : msgAge ≠ msgEmailReq := by decide
  have h4 : msgAge ≠ msgEmailInvalid := by decide
  rw [validate_errors_def]
  cases hage : u.age with
  | none => split_ifs <;> simp_all
  | some a => split_ifs <;> simp_all

lemma validate_mem_nameReq (u : UserData) :
    msgNameReq ∈ (User.validate u).errors ↔ trimS u.name = [] := by
  have h1 : msgNameReq ≠ msgNameLen := by decide
  have h2 : msgNameReq ≠ msgEmailReq := by decide
  have h3 : msgNameReq ≠ msgEmailInvalid := by decide
  have h4 : msgNameReq ≠ msgAge := by decide
  rw [validate_errors_def]
  cases u.age with
  | none => split_ifs <;> simp_all
  | some a => split_ifs <;> simp_all

lemma validate_mem_nameLen (u : UserData) :
    msgNameLen ∈ (User.validate u).errors ↔
      trimS u.name ≠ [] ∧ (trimS u.name).length < 2 := by
  have h1 : msgNameLen ≠ msgNameReq := by decide
  have h2 : msgNameLen ≠ msgEmailReq := by decide
  have h3 : msgNameLen ≠ msgEmailInvalid := by decide
  have h4 : msgNameLen ≠ msgAge := by decide
  rw [validate_errors_def]
  cases u.age with
  | none => split_ifs <;> simp_all
  | some a => split_ifs <;> simp_all

lemma validate_mem_emailReq (u : UserData) :
    msgEmailReq ∈ (User.validate u).errors ↔ trimS u.email = [] := by
  have h1 : msgEmailReq ≠ msgNameReq := by decide
  have h2 : msgEmailReq ≠ msgNameLen := by decide
  have h3 : msgEmailReq ≠ msgEmailInvalid := by decide
  have h4 : msgEmailReq ≠ msgAge := by decide
  rw [validate_errors_def]
  cases u.age with
  | none => split_ifs <;> simp_all
  | some a => split_ifs <;> simp_all

lemma validate_mem_emailInvalid (u : UserData) :
    msgEmailInvalid ∈ (User.validate u).errors ↔
      trimS u.email ≠ [] ∧ emailRegexTest u.email = false := by
  have h1 : msgEmailInvalid ≠ msgNameReq := by decide
  have h2 : msgEmailInvalid ≠ msgNameLen := by decide
  have h3 : msgEmailInvalid ≠ msgEmailReq := by decide
  have h4 : msgEmailInvalid ≠ msgAge := by decide
  rw [validate_errors_def]
  cases u.age with
  | none => split_ifs <;> simp_all
  | some a => split_ifs <;> simp_all

lemma jltgt_iff (a : JNum) :
    (jlt a (JNum.num 0) || jgt a (JNum.num 150)) = true ↔
      ∃ q : ℚ, a = JNum.num q ∧ (q < 0 ∨ 150 < q) := by
  cases a <;> simp [jlt, jgt]

/-! ### C8 — output projections -/

/-- C8: for every record, `toPublicJSON` exposes exactly the identifier, name,
email, age, active flag and the two timestamps (the `UserPublic` structure has
no password field, and the projection is insensitive to the password), while
`toListJSON` exposes exactly name, email and age (insensitive to identifier,
password, active flag and timestamps). -/
theorem c8_views_expose_exact_fields :
    (∀ u : UserData, User.toPublicJSON u =
      { id := u.id, name := u.name, email := u.email, age := u.age,
        is_active := u.is_active, created_at := u.created_at,
        updated_at := u.updated_at }) ∧
    (∀ (u : UserData) (p : Option Str),
      User.toPublicJSON { u with password := p } = User.toPublicJSON u) ∧
    (∀ u : UserData, User.toListJSON u =
      { name := u.name, email := u.email, age := u.age }) ∧
    (∀ (u : UserData) (i : Option Nat) (p : Option Str) (b : Bool) (c d : Nat),
      User.toListJSON
        { u with id := i, password := p, is_active := b,
                 created_at := c, updated_at := d } = User.toListJSON u) :=
  ⟨fun _ => rfl, fun _ _ => rfl, fun _ => rfl, fun _ _ _ _ _ _ => rfl⟩

/-! ### C5 — the age validation rule -/


/-- C5 counterexample: the claim requires the age message for every present
age that is not an integer in [0, 150]; but validation accepts both a present
`NaN` age (both comparisons with `NaN` are false) and the non-integer 30.5
(only the range is checked, never integrality), producing no error at all. -/
theorem c5_counterexample :
    c5user.age = some JNum.nan ∧
    (User.validate c5user).valid = true ∧ (User.validate c5user).errors = [] ∧
    c5userHalf.age = some (JNum.num (mkRat 61 2)) ∧ (mkRat 61 2).den = 2 ∧
    (User.validate c5userHalf).errors = [] := by decide

/-- C5 (amended): for a record whose age field is present, `validate` reports
"A idade deve ser um número entre 0 e 150" if and only if the age is a plain
(non-`NaN`) number that is `< 0` or `> 150`; `NaN` and non-integer values
inside the range produce no error, because only the two order comparisons are
checked. -/
theorem c5_age_error_iff (u : UserData) (a : JNum) (h : u.age = some a) :
    msgAge ∈ (User.validate u).errors ↔
      ∃ q : ℚ, a = JNum.num q ∧ (q < 0 ∨ 150 < q) := by
  rw [validate_mem_age]
  constructor
  · rintro ⟨a', ha', hc⟩
    rw [h] at ha'
    cases ha'
    exact (jltgt_iff a).mp hc
  · intro hq
    exact ⟨a, h, (jltgt_iff a).mpr hq⟩

/-- Witness for `c5_age_error_iff` at age 151. -/
theorem c5_age_error_iff_witness :
    msgAge ∈ (User.validate { c5user with age := some (JNum.num 151) }).errors :=
  (c5_age_error_iff { c5user with age := some (JNum.num 151) } (JNum.num 151)
    rfl).mpr ⟨151, rfl, Or.inr (by norm_num)⟩

/-! ### C2 — read visibility (active-only reads vs. all-rows emailExists) -/

lemma ofRow_id (r : UserRow) : (User.ofRow r).id = some r.id := rfl

lemma ofRow_email (r : UserRow) : (User.ofRow r).email = r.email := rfl

lemma ofRow_name (r : UserRow) : (User.ofRow r).name = r.name := rfl

lemma ofRow_age (r : UserRow) : (User.ofRow r).age = r.age := rfl

lemma ofRow_is_active (r : UserRow) :
    (User.ofRow r).is_active = decide (r.is_active = 1) := rfl

/-- C2: `emailExists` matches case-insensitively across **all** rows, active
or soft-deleted; `findByEmail` resolves iff an **active** row matches
case-insensitively; `findById` and `findAll` only ever surface active rows;
and consequently, soft-deleting the sole holder of an email keeps
`emailExists` true while `findByEmail` becomes absent. -/
theorem c2_read_visibility :
    (∀ (e : Str) (db : Db),
      User.emailExists e db = true ↔ ∃ r ∈ db.rows, sLower r.email = sLower e) ∧
    (∀ (e : Str) (db : Db),
      (∃ u, User.findByEmail e db = some u) ↔
        ∃ r ∈ db.rows, sLower r.email = sLower e ∧ r.is_active = 1) ∧
    (∀ (i : Nat) (db : Db) (u : UserData),
      User.findById i db = some u →
        u.is_active = true ∧ ∃ r ∈ db.rows, r.id = i ∧ r.is_active = 1 ∧ u = User.ofRow r) ∧
    (∀ (db : Db) (u : UserData), u ∈ User.findAll db → u.is_active = true) ∧
    (∀ (db : Db) (i now : Nat) (u : UserData), Db.WF db →
      User.findById i db = some u →
      (∀ r ∈ db.rows, sLower r.email = sLower u.email → r.id = i) →
      User.emailExists u.email (User.delete i now db).2 = true ∧
      User.findByEmail u.email (User.delete i now db).2 = none) := by
  refine ⟨?_, ?_, ?_, ?_, ?_⟩
  · intro e db
    simp [User.emailExists, List.any_eq_true]
  · intro e db
    constructor
    · rintro ⟨u, hu⟩
      rw [User.findByEmail, Option.map_eq_some'] at hu
      obtain ⟨r, hr, -⟩ := hu
      have hp := List.find?_some hr
      have hm := List.mem_of_find?_eq_some hr
      simp only [Bool.and_eq_true, beq_iff_eq] at hp
      exact ⟨r, hm, hp.1, by simpa using hp.2⟩
    · rintro ⟨r, hr, he, ha⟩
      have : ((db.rows.find? fun r =>
          sLower r.email == sLower e && r.is_active == 1)).isSome = true := by
        rw [List.find?_isSome]
        exact ⟨r, hr, by simp [he, ha]⟩
      obtain ⟨v, hv⟩ := Option.isSome_iff_exists.mp this
      exact ⟨User.ofRow v, by simp [User.findByEmail, hv]⟩
  · intro i db u hu
    rw [User.findById, Option.map_eq_some'] at hu
    obtain ⟨r, hr, hru⟩ := hu
    have hp := List.find?_some hr
    have hm := List.mem_of_find?_eq_some hr
    simp only [Bool.and_eq_true, beq_iff_eq] at hp
    have ha : r.is_active = 1 := by simpa using hp.2
    refine ⟨?_, r, hm, hp.1, ha, hru.symm⟩
    rw [← hru, ofRow_is_active, ha]
    decide
  · intro db u hu
    rw [User.findAll] at hu
    obtain ⟨r, hr, hru⟩ := List.mem_map.mp hu
    have ha : r.is_active = 1 := by
      have := (List.mem_filter.mp hr).2
      simpa using this
    rw [← hru, ofRow_is_active, ha]
    decide
  · intro db i now u hwf hfind huniq
    have hfind' := hfind
    rw [User.findById, Option.map_eq_some'] at hfind'
    obtain ⟨r0, hr0, hr0u⟩ := hfind'
    have hp := List.find?_some hr0
    have hm := List.mem_of_find?_eq_some hr0
    simp only [Bool.and_eq_true, beq_iff_eq] at hp
    have hr0i : r0.id = i := hp.1
    have hi1 : 1 ≤ i := hr0i ▸ (hwf.2.1 r0 hm).1
    have hune : u.id = some i := by rw [← hr0u, ofRow_id, hr0i]
    have hrows : (User.delete i now db).2.rows = db.rows.map fun r =>
        if r.id = i then
          { r with name := u.name, email := u.email, password := u.password,
                   age := u.age, is_active := 0, updated_at := now }
        else r := by
      rw [User.delete, hfind]
      simp only [User.save, hune, Nat.pos_iff_ne_zero.mp hi1, if_false]
      rfl
    constructor
    · rw [User.emailExists, hrows, List.any_eq_true]
      refine ⟨_, List.mem_map_of_mem _ hm, ?_⟩
      simp [hr0i]
    · rw [User.findByEmail, hrows, Option.map_eq_none', List.find?_eq_none]
      intro x hx
      obtain ⟨r, hr, rfl⟩ := List.mem_map.mp hx
      by_cases hri : r.id = i
      · simp [hri]
      · simp only [if_neg hri, Bool.and_eq_true, beq_iff_eq, not_and]
        intro h1 _
        exact hri (huniq r hr h1)


/-- Witness for `c2_read_visibility`: soft-deleting the only holder of an
email keeps `emailExists` true and makes `findByEmail` absent. -/
theorem c2_read_visibility_witness :
    User.emailExists (User.ofRow c2row).email (User.delete 1 5 c2db).2 = true ∧
    User.findByEmail (User.ofRow c2row).email (User.delete 1 5 c2db).2 = none :=
  c2_read_visibility.2.2.2.2 c2db 1 5 (User.ofRow c2row) (by decide) (by decide)
    (by decide)

/-! ### C3 — the create trichotomy -/


lemma create_invalid_state (d : UserCreateInput) (now : Nat) (db : Db)
    (hv : (User.validate (User.candidate d now)).valid = false) :
    User.create d now db =
      ({ success := false, user := none,
         errors := some (User.validate (User.candidate d now)).errors }, db) := by
  simp [User.create, User.candidate, User.new] at hv ⊢
  simp [hv]

lemma create_conflict_state (d : UserCreateInput) (now : Nat) (db : Db)
    (hv : (User.validate (User.candidate d now)).valid = true)
    (hex : User.emailExists d.email db = true) :
    User.create d now db =
      ({ success := false, user := none, errors := some [msgEmailTaken] }, db) := by
  simp [User.create, User.candidate, User.new] at hv ⊢
  simp [hv, hex]

lemma create_success_state (d : UserCreateInput) (now : Nat) (db : Db)
    (hv : (User.validate (User.candidate d now)).valid = true)
    (hex : User.emailExists d.email db = false) :
    User.create d now db =
      ({ success := true,
         user := some { User.candidate d now with
                        id := some db.nextId, updated_at := now },
         errors := none },
       { rows := db.rows ++
           [{ id := db.nextId, name := (User.candidate d now).name,
              email := (User.candidate d now).email,
              password := (User.candidate d now).password,
              age := (User.candidate d now).age, is_active := 1,
              created_at := now, updated_at := now }],
         nextId := db.nextId + 1 }) := by
  simp [User.create, User.candidate, User.new] at hv ⊢
  simp [hv, hex, User.save, User.insertRow]

/-- C3: `create` either fails validation (returning every failing rule's
message and leaving the store untouched), or passes validation but collides
case-insensitively with the email of **any** stored row — active or not —
(returning exactly the single conflict message and leaving the store
untouched), or inserts exactly one new row and returns success with the
store-assigned identifier on the record; the reported validation list is
complete, containing each rule's message exactly when that rule fails. -/
theorem c3_create_trichotomy (d : UserCreateInput) (now : Nat) (db : Db) :
    ((User.validate (User.candidate d now)).valid = false →
      User.create d now db =
        ({ success := false, user := none,
           errors := some (User.validate (User.candidate d now)).errors }, db)) ∧
    ((User.validate (User.candidate d now)).valid = true →
      User.emailExists d.email db = true →
      User.create d now db =
        ({ success := false, user := none, errors := some [msgEmailTaken] }, db)) ∧
    ((User.validate (User.candidate d now)).valid = true →
      User.emailExists d.email db = false →
      User.create d now db =
        ({ success := true,
           user := some { User.candidate d now with
                          id := some db.nextId, updated_at := now },
           errors := none },
         { rows := db.rows ++
             [{ id := db.nextId, name := (User.candidate d now).name,
                email := (User.candidate d now).email,
                password := (User.candidate d now).password,
                age := (User.candidate d now).age, is_active := 1,
                created_at := now, updated_at := now }],
           nextId := db.nextId + 1 })) ∧
    (msgNameReq ∈ (User.validate (User.candidate d now)).errors ↔
      trimS d.name = []) ∧
    (msgNameLen ∈ (User.validate (User.candidate d now)).errors ↔
      trimS d.name ≠ [] ∧ (trimS d.name).length < 2) ∧
    (msgEmailReq ∈ (User.validate (User.candidate d now)).errors ↔
      trimS d.email = []) ∧
    (msgEmailInvalid ∈ (User.validate (User.candidate d now)).errors ↔
      trimS d.email ≠ [] ∧ emailRegexTest d.email = false) ∧
    (msgAge ∈ (User.validate (User.candidate d now)).errors ↔
      ∃ a, d.age = some a ∧ (jlt a (JNum.num 0) || jgt a (JNum.num 150)) = true) := by
  exact ⟨create_invalid_state d now db, create_conflict_state d now db,
    create_success_state d now db, validate_mem_nameReq _, validate_mem_nameLen _,
    validate_mem_emailReq _, validate_mem_emailInvalid _, validate_mem_age _⟩


/-- Witness for `c3_create_trichotomy`: the success branch on the empty
database inserts one row and returns the store-assigned id 1. -/
theorem c3_create_trichotomy_witness :
    User.create c3in 5 db0 =
      ({ success := true,
         user := some { User.candidate c3in 5 with id := some 1, updated_at := 5 },
         errors := none },
       { rows := [{ id := 1, name := (User.candidate c3in 5).name,
                    email := (User.candidate c3in 5).email,
                    password := (User.candidate c3in 5).password,
                    age := (User.candidate c3in 5).age, is_active := 1,
                    created_at := 5, updated_at := 5 }],
         nextId := 2 }) :=
  (c3_create_trichotomy c3in 5 db0).2.2.1 (by decide) (by decide)

/-! ### C4 — soft delete -/

lemma ofRow_password (r : UserRow) :
    (User.ofRow r).password = jsOrNone r.password := rfl

lemma rows_id_inj {l : List UserRow} (h : (l.map UserRow.id).Pairwise (· < ·)) :
    ∀ r ∈ l, ∀ r' ∈ l, r.id = r'.id → r = r' := by
  induction l with
  | nil => simp
  | cons x xs ih =>
      rw [List.map_cons, List.pairwise_cons] at h
      obtain ⟨hx, hxs⟩ := h
      intro r hr r' hr' hid
      rcases List.mem_cons.mp hr with h1 | h1 <;>
        rcases List.mem_cons.mp hr' with h2 | h2
      · rw [h1, h2]
      · exfalso
        have := hx _ (List.mem_map_of_mem UserRow.id h2)
        rw [h1] at hid
        omega
      · exfalso
        have := hx _ (List.mem_map_of_mem UserRow.id h1)
        rw [h2] at hid
        omega
      · exact ih hxs r h1 r' h2 hid

lemma delete_not_found (i now : Nat) (db : Db)
    (h : User.findById i db = none) : User.delete i now db = (false, db) := by
  simp [User.delete, h]

/-- Successful soft delete: result `true`, counter untouched, and the row with
the requested id is exactly deactivated with a refreshed `updated_at`. -/
lemma delete_found_rows (i now : Nat) (db : Db) (u : UserData) (hwf : Db.WF db)
    (hfind : User.findById i db = some u) :
    (User.delete i now db).1 = true ∧
    (User.delete i now db).2.nextId = db.nextId ∧
    (User.delete i now db).2.rows = db.rows.map fun r =>
      if r.id = i then { r with is_active := 0, updated_at := now } else r := by
  have hfind' := hfind
  rw [User.findById, Option.map_eq_some'] at hfind'
  obtain ⟨r0, hr0, hr0u⟩ := hfind'
  have hp := List.find?_some hr0
  have hm := List.mem_of_find?_eq_some hr0
  simp only [Bool.and_eq_true, beq_iff_eq] at hp
  have hr0i : r0.id = i := hp.1
  have hi1 : 1 ≤ i := hr0i ▸ (hwf.2.1 r0 hm).1
  have hune : u.id = some i := by rw [← hr0u, ofRow_id, hr0i]
  have hrows : (User.delete i now db).2.rows = db.rows.map fun r =>
      if r.id = i then
        { r with name := u.name, email := u.email, password := u.password,
                 age := u.age, is_active := 0, updated_at := now }
      else r := by
    rw [User.delete, hfind]
    simp only [User.save, hune, Nat.pos_iff_ne_zero.mp hi1, if_false]
    rfl
  refine ⟨by rw [User.delete, hfind], ?_, ?_⟩
  · rw [User.delete, hfind]
    simp [User.save, hune, Nat.pos_iff_ne_zero.mp hi1]
  · rw [hrows]
    apply List.map_congr_left
    intro r hr
    by_cases hri : r.id = i
    · have hrr : r = r0 := rows_id_inj hwf.2.2.1 r hr r0 hm (by rw [hri, hr0i])
      subst hrr
      have hpw := jsOrNone_eq_self r.password (hwf.2.2.2 r hr)
      rw [← hr0u]
      simp [User.ofRow, User.new, User.fromRow, jsOrNone, hri] at hpw ⊢
      simp [hpw]
    · simp [hri]

/-- C4: deleting an active record flips its active flag to 0, refreshes its
`updated_at`, keeps everything else (other rows, the id counter) unchanged and
returns `true`; deleting an id that resolves to no active record returns
`false` and leaves the state untouched — in particular the second of two
consecutive deletes of the same id. -/
theorem c4_soft_delete (id now : Nat) (db : Db) :
    (User.findById id db = none → User.delete id now db = (false, db)) ∧
    (∀ u : UserData, Db.WF db → User.findById id db = some u →
      (User.delete id now db).1 = true ∧
      (User.delete id now db).2.nextId = db.nextId ∧
      (User.delete id now db).2.rows = db.rows.map fun r =>
        if r.id = id then { r with is_active := 0, updated_at := now } else r) ∧
    (∀ (u : UserData) (now2 : Nat), Db.WF db → User.findById id db = some u →
      User.delete id now2 (User.delete id now db).2 =
        (false, (User.delete id now db).2)) := by
  refine ⟨?_, ?_, ?_⟩
  · intro h
    exact delete_not_found id now db h
  · intro u hwf hfind
    exact delete_found_rows id now db u hwf hfind
  · intro u now2 hwf hfind
    obtain ⟨-, -, hrows⟩ := delete_found_rows id now db u hwf hfind
    have hnone : User.findById id (User.delete id now db).2 = none := by
      rw [User.findById, Option.map_eq_none', List.find?_eq_none]
      intro x hx
      rw [hrows] at hx
      obtain ⟨r, hr, rfl⟩ := List.mem_map.mp hx
      by_cases hri : r.id = id
      · simp [hri]
      · simp [hri]
    exact delete_not_found id now2 _ hnone

/-- Witness for `c4_soft_delete`: on the one-record database, the first
delete succeeds and deactivates the row, the second returns false unchanged. -/
theorem c4_soft_delete_witness :
    User.delete 1 9 (User.delete 1 7 c2db).2 = (false, (User.delete 1 7 c2db).2) :=
  (c4_soft_delete 1 7 c2db).2.2 (User.ofRow c2row) 9 (by decide) (by decide)

/-! ### C7 — create followed by findById -/


lemma create_success_state' (d : UserCreateInput) (now : Nat) (db : Db)
    (hv : (User.validate (User.candidate d now)).valid = true)
    (hex : User.emailExists d.email db = false) :
    User.create d now db =
      ({ success := true,
         user := some { User.candidate d now with
                        id := some db.nextId, updated_at := now },
         errors := none },
       { rows := db.rows ++ [User.insertedRow d now db],
         nextId := db.nextId + 1 }) :=
  create_success_state d now db hv hex

lemma find?_append_of_none (l : List α) (p : α → Bool) (a : α)
    (h : ∀ x ∈ l, p x = false) :
    (l ++ [a]).find? p = if p a then some a else none := by
  induction l with
  | nil => cases hpa : p a <;> simp [List.find?, hpa]
  | cons x xs ih =>
      have hx := h x (by simp)
      simp only [List.cons_append, List.find?, hx]
      exact ih fun y hy => h y (by simp [hy])

/-- C7: a successful `create` returns the record carrying the freshly
assigned identifier, and an immediate `findById` on that identifier returns a
record whose public view (id, name, email, age, active flag, both timestamps)
coincides with the created one's. -/
theorem c7_create_findById_roundtrip (d : UserCreateInput) (now : Nat) (db : Db)
    (hwf : Db.WF db) (u : UserData)
    (hs : (User.create d now db).1.success = true)
    (hu : (User.create d now db).1.user = some u) :
    u.id = some db.nextId ∧
    ∃ u', User.findById db.nextId (User.create d now db).2 = some u' ∧
      User.toPublicJSON u' = User.toPublicJSON u := by
  by_cases hv : (User.validate (User.candidate d now)).valid = true
  · by_cases hex : User.emailExists d.email db = true
    · rw [create_conflict_state d now db hv hex] at hs
      simp at hs
    · rw [Bool.not_eq_true] at hex
      rw [create_success_state' d now db hv hex] at hs hu ⊢
      simp only [Option.some_inj] at hu
      subst hu
      refine ⟨rfl, ?_⟩
      rw [User.findById]
      have hrow : (List.find? (fun r => r.id == db.nextId && r.is_active == 1)
          (db.rows ++ [User.insertedRow d now db])) =
          some (User.insertedRow d now db) := by
        rw [find?_append_of_none]
        · simp [User.insertedRow]
        · intro x hx
          have hlt := (hwf.2.1 x hx).2
          have hne : x.id ≠ db.nextId := by omega
          simp [hne]
      rw [hrow]
      refine ⟨_, rfl, ?_⟩
      simp [User.toPublicJSON, User.ofRow, User.new, User.fromRow, User.candidate,
        User.insertedRow]
  · rw [Bool.not_eq_true] at hv
    rw [create_invalid_state d now db hv] at hs
    simp at hs

/-- Witness for `c7_create_findById_roundtrip` on the empty database. -/
theorem c7_create_findById_roundtrip_witness :
    ((User.create c3in 5 db0).1.user.getD (User.candidate c3in 5)).id = some 1 :=
  (c7_create_findById_roundtrip c3in 5 db0 (by decide)
    ((User.create c3in 5 db0).1.user.getD (User.candidate c3in 5))
    (by decide) (by decide)).1

/-! ### C1 — conflict detection in the controller's update -/


/-- C1 counterexample: the claim says a conflict occurs only when the new
email collides with a **different active** record, so updating a record to a
case variant of its own email, or to a soft-deleted record's email, must
succeed.  The code instead conflicts in both situations: the self-exclusion
check `email !== user.email` is case-sensitive while `emailExists` is
case-insensitive over **all** rows, active or not. -/
theorem c1_counterexample :
    (UserController.update 1 JStr.undef (JStr.jstr (str "A@x.com")) JAge.undef
      7 c1db).1 = UpdResult.conflict ∧
    c1db.rows = [c1row] ∧ c1row.id = 1 ∧ c1row.is_active = 1 ∧
    sLower (str "A@x.com") = sLower c1row.email ∧
    (UserController.update 1 JStr.undef (JStr.jstr (str "b@y.com")) JAge.undef
      7 c1db2).1 = UpdResult.conflict ∧
    c1db2.rows = [c1row, c1rowDel] ∧ c1rowDel.is_active = 0 ∧
    c1rowDel.email = str "b@y.com" := by decide

/-- C1 (amended): for an update that finds its target record, the operation
fails with the conflict error iff the email input is truthy, differs
**case-sensitively** from the stored email, and matches **case-insensitively**
the email of **any** stored row — including soft-deleted rows and the target
row itself; on conflict nothing is persisted. -/
theorem c1_update_conflict_iff (id : Nat) (nm em : JStr) (ag : JAge)
    (now : Nat) (db : Db) (u : UserData)
    (h : User.findById id db = some u) :
    ((UserController.update id nm em ag now db).1 = UpdResult.conflict ↔
      em.truthy = true ∧ em.getStr ≠ u.email ∧
        User.emailExists em.getStr db = true) ∧
    ((UserController.update id nm em ag now db).1 = UpdResult.conflict →
      (UserController.update id nm em ag now db).2 = db) := by
  by_cases hg : (em.truthy && em.getStr != u.email
      && User.emailExists em.getStr db) = true
  · have hres : UserController.update id nm em ag now db = (UpdResult.conflict, db) := by
      simp only [UserController.update, h, hg, if_pos]
    rw [hres]
    refine ⟨⟨fun _ => ?_, fun _ => rfl⟩, fun _ => rfl⟩
    have hg2 := hg
    simp only [Bool.and_eq_true, bne_iff_ne] at hg2
    exact ⟨hg2.1.1, hg2.1.2, hg2.2⟩
  · have hnc : (UserController.update id nm em ag now db).1 ≠ UpdResult.conflict := by
      simp only [UserController.update, h, if_neg hg]
      split_ifs <;> simp
    refine ⟨⟨fun hc => absurd hc hnc, fun hc => ?_⟩, fun hc => absurd hc hnc⟩
    refine absurd ?_ hg
    simp only [Bool.and_eq_true, bne_iff_ne]
    exact ⟨⟨hc.1, hc.2.1⟩, hc.2.2⟩

/-- Witness for `c1_update_conflict_iff`: the conflicting update on `c1db`
persists nothing. -/
theorem c1_update_conflict_iff_witness :
    (UserController.update 1 JStr.undef (JStr.jstr (str "A@x.com")) JAge.undef
      7 c1db).2 = c1db :=
  (c1_update_conflict_iff 1 JStr.undef (JStr.jstr (str "A@x.com")) JAge.undef
    7 c1db (User.ofRow c1row) (by decide)).2 (by decide)

/-! ### C10 — falsy update fields and `age: null` -/

lemma validate_set_age_nan (u : UserData) (h : (User.validate u).valid = true) :
    (User.validate { u with age := some JNum.nan }).valid = true := by
  rw [validate_valid_iff, validate_errors_def] at h ⊢
  rcases List.append_eq_nil.mp h with ⟨h1, h23⟩
  rcases List.append_eq_nil.mp h23 with ⟨h2, -⟩
  simp [h1, jlt, jgt]
  simpa using h2

/-- C10: in the controller's update, falsy `name`/`email` inputs are treated
as absent (the stored values are kept and cause no validation error, the
conflict guard short-circuits), while an `age` key that is present — even as
`null` — is applied through `parseInt`, whose result on `null` is `NaN`;
`NaN` passes validation and is persisted, and every field other than
name/email/age/updated_at (id, password, active flag, created_at, the other
rows, the id counter) is left unchanged. -/
theorem c10_update_treats_falsy_as_absent (id now : Nat) (nm em : JStr)
    (db : Db) (u : UserData) (hwf : Db.WF db)
    (hfind : User.findById id db = some u)
    (hnm : nm.truthy = false) (hem : em.truthy = false)
    (hvalid : (User.validate u).valid = true) :
    parseIntJS JAge.jsnull = JNum.nan ∧
    (UserController.update id nm em JAge.jsnull now db).1 =
      UpdResult.ok (User.toPublicJSON
        { u with age := some JNum.nan, updated_at := now }) ∧
    (UserController.update id nm em JAge.jsnull now db).2.nextId = db.nextId ∧
    (UserController.update id nm em JAge.jsnull now db).2.rows =
      db.rows.map fun r =>
        if r.id = id then
          { r with name := u.name, email := u.email, password := u.password,
                   age := some JNum.nan,
                   is_active := if u.is_active then 1 else 0,
                   updated_at := now }
        else r := by
  have hfind' := hfind
  rw [User.findById, Option.map_eq_some'] at hfind'
  obtain ⟨r0, hr0, hr0u⟩ := hfind'
  have hp := List.find?_some hr0
  have hm := List.mem_of_find?_eq_some hr0
  simp only [Bool.and_eq_true, beq_iff_eq] at hp
  have hid1 : 1 ≤ id := hp.1 ▸ (hwf.2.1 r0 hm).1
  have hid0 : ¬ id = 0 := by omega
  have huid : u.id = some id := by rw [← hr0u, ofRow_id, hp.1]
  have hval1 : (User.validate { u with age := some JNum.nan }).valid = true :=
    validate_set_age_nan u hvalid
  have hval2 : (User.validate
      ({ id := some id, name := u.name, email := u.email, password := u.password,
         age := some JNum.nan, is_active := u.is_active,
         created_at := u.created_at, updated_at := u.updated_at } : UserData)).valid
      = true := by
    rw [← huid]
    exact hval1
  have hguard : (em.truthy && em.getStr != u.email
      && User.emailExists em.getStr db) = false := by simp [hem]
  have hupd : UserController.update id nm em JAge.jsnull now db =
      (UpdResult.ok (User.toPublicJSON
        { u with age := some JNum.nan, updated_at := now }),
       { db with rows := db.rows.map fun r =>
          if r.id = id then
            { r with name := u.name, email := u.email, password := u.password,
                     age := some JNum.nan,
                     is_active := if u.is_active then 1 else 0,
                     updated_at := now }
          else r }) := by
    simp [UserController.update, hfind, hguard, hnm, hem, parseIntJS, hval1,
      hval2, User.save, huid, hid0]
  exact ⟨rfl, by rw [hupd], by rw [hupd], by rw [hupd]⟩

/-- Witness for `c10_update_treats_falsy_as_absent`: updating the one-record
store with empty name, null email and null age persists `NaN` as the age and
succeeds. -/
theorem c10_update_treats_falsy_as_absent_witness :
    (UserController.update 1 (JStr.jstr (str "")) JStr.jsnull JAge.jsnull 9
      c2db).1 = UpdResult.ok (User.toPublicJSON
        { User.ofRow c2row with age := some JNum.nan, updated_at := 9 }) :=
  (c10_update_treats_falsy_as_absent 1 9 (JStr.jstr (str "")) JStr.jsnull c2db
    (User.ofRow c2row) (by decide) (by decide) (by decide) (by decide)
    (by decide)).2.1

/-! ### C6 — identifier lifecycle -/

lemma sqlStep_create_eq (d : UserCreateInput) (now : Nat) (db : Db) :
    SqlStep (Op.create d) now db =
      (OpRes.created (User.create d now db).1, (User.create d now db).2) := by
  rcases h : User.create d now db with ⟨r, db'⟩
  simp [SqlStep, h]

lemma sqlStep_delete_eq (i now : Nat) (db : Db) :
    SqlStep (Op.delete i) now db =
      (OpRes.boolRes (User.delete i now db).1, (User.delete i now db).2) := by
  rcases h : User.delete i now db with ⟨b, db'⟩
  simp [SqlStep, h]

lemma delete_found_eq (i now : Nat) (db : Db) (u : UserData)
    (hf : User.findById i db = some u) :
    User.delete i now db =
      (true, (User.save { u with is_active := false } now db).2) := by
  rcases hs : User.save { u with is_active := false } now db with ⟨u2, db'⟩
  simp [User.delete, hf, hs]

lemma wf_insert (db : Db) (hwf : Db.WF db) (row : UserRow)
    (hid : row.id = db.nextId) (hpw : row.password ≠ some []) :
    Db.WF { rows := db.rows ++ [row], nextId := db.nextId + 1 } := by
  obtain ⟨h1, h2, h3, h4⟩ := hwf
  simp only [Db.WF]
  refine ⟨by omega, ?_, ?_, ?_⟩
  · intro r hr
    rcases List.mem_append.mp hr with hr | hr
    · have := h2 r hr
      constructor <;> omega
    · simp at hr
      subst hr
      omega
  · rw [List.map_append, List.pairwise_append]
    refine ⟨h3, by simp, ?_⟩
    intro a ha b hb
    simp only [List.map_cons, List.map_nil, List.mem_singleton] at hb
    obtain ⟨r, hr, rfl⟩ := List.mem_map.mp ha
    rw [hb, hid]
    exact (h2 r hr).2
  · intro r hr
    rcases List.mem_append.mp hr with hr | hr
    · exact h4 r hr
    · simp at hr
      subst hr
      exact hpw

lemma wf_deactivate (db : Db) (hwf : Db.WF db) (i now : Nat) :
    Db.WF { db with rows := db.rows.map fun r =>
      if r.id = i then { r with is_active := 0, updated_at := now } else r } := by
  obtain ⟨h1, h2, h3, h4⟩ := hwf
  have hids : ((db.rows.map fun r =>
      if r.id = i then { r with is_active := 0, updated_at := now } else r).map
        UserRow.id) = db.rows.map UserRow.id := by
    rw [List.map_map]
    apply List.map_congr_left
    intro r _
    by_cases hri : r.id = i <;> simp [hri]
  simp only [Db.WF]
  refine ⟨h1, ?_, ?_, ?_⟩
  · intro r hr
    obtain ⟨r0, hr0, rfl⟩ := List.mem_map.mp hr
    have hb := h2 r0 hr0
    by_cases hri : r0.id = i <;> simp [hri] <;> omega
  · show ((db.rows.map _).map UserRow.id).Pairwise _
    rw [hids]
    exact h3
  · intro r hr
    obtain ⟨r0, hr0, rfl⟩ := List.mem_map.mp hr
    by_cases hri : r0.id = i <;> simp [hri] <;> exact h4 r0 hr0

lemma wf_step (op : Op) (now : Nat) (db : Db) (hwf : Db.WF db) :
    Db.WF (SqlStep op now db).2 := by
  cases op with
  | create d =>
      rw [sqlStep_create_eq]
      by_cases hv : (User.validate (User.candidate d now)).valid = true
      · by_cases hex : User.emailExists d.email db = true
        · rw [create_conflict_state d now db hv hex]
          exact hwf
        · rw [Bool.not_eq_true] at hex
          rw [create_success_state' d now db hv hex]
          exact wf_insert db hwf _ rfl (jsOrNone_ne_empty d.password)
      · rw [Bool.not_eq_true] at hv
        rw [create_invalid_state d now db hv]
        exact hwf
  | delete i =>
      rw [sqlStep_delete_eq]
      cases hf : User.findById i db with
      | none =>
          rw [delete_not_found i now db hf]
          exact hwf
      | some u =>
          obtain ⟨-, hnext, hrows⟩ := delete_found_rows i now db u hwf hf
          have hd := wf_deactivate db hwf i now
          simp only [Db.WF] at hd ⊢
          rw [hrows, hnext]
          exact hd
  | findAll => exact hwf
  | findById i => exact hwf
  | findByEmail e => exact hwf
  | emailExists e => exact hwf
  | count => exact hwf

lemma save_ids (u : UserData) (now : Nat) (db : Db) :
    (User.save u now db).2.rows.map UserRow.id = db.rows.map UserRow.id ∨
    (User.save u now db).2.rows.map UserRow.id =
      db.rows.map UserRow.id ++ [db.nextId] := by
  rw [User.save]
  cases hu : u.id with
  | none => right; simp [User.insertRow]
  | some i =>
      by_cases hi : i = 0
      · right
        simp [hi, User.insertRow]
      · left
        simp only [hi, if_false]
        rw [List.map_map]
        apply List.map_congr_left
        intro r _
        by_cases hri : r.id = i <;> simp [hri]

lemma ids_step (op : Op) (now : Nat) (db : Db) :
    (SqlStep op now db).2.rows.map UserRow.id = db.rows.map UserRow.id ∨
    (SqlStep op now db).2.rows.map UserRow.id =
      db.rows.map UserRow.id ++ [db.nextId] := by
  cases op with
  | create d =>
      rw [sqlStep_create_eq]
      by_cases hv : (User.validate (User.candidate d now)).valid = true
      · by_cases hex : User.emailExists d.email db = true
        · rw [create_conflict_state d now db hv hex]
          left; rfl
        · rw [Bool.not_eq_true] at hex
          rw [create_success_state' d now db hv hex]
          right
          simp [User.insertedRow]
      · rw [Bool.not_eq_true] at hv
        rw [create_invalid_state d now db hv]
        left; rfl
  | delete i =>
      rw [sqlStep_delete_eq]
      cases hf : User.findById i db with
      | none =>
          rw [delete_not_found i now db hf]
          left; rfl
      | some u =>
          rw [delete_found_eq i now db u hf]
          exact save_ids _ now db
  | findAll => left; rfl
  | findById i => left; rfl
  | findByEmail e => left; rfl
  | emailExists e => left; rfl
  | count => left; rfl

/-- C6 (amended): in the SQLite-backed model a record's identifier is absent
until first persisted and assigned from the store counter on first save; the
well-formedness invariant — identifiers positive, below the counter, strictly
increasing in table order (hence unique) — holds of the fresh store and is
preserved by every operation, and no operation ever rewrites an existing
row's identifier (the id column evolves only by appending the fresh counter
value).  In the in-memory variant, however, the identifier is already
assigned at construction time by the `nextId++` counter, before any
persistence (this is the part on which the claim as stated fails). -/
theorem c6_identifier_lifecycle :
    (∀ (d : UserDataIn) (now : Nat), d.id = none → (User.new d now).id = none) ∧
    (∀ (u : UserData) (now : Nat) (db : Db), u.id = none →
      (User.save u now db).1.id = some db.nextId ∧
      (User.save u now db).2.nextId = db.nextId + 1) ∧
    Db.WF db0 ∧
    (∀ (op : Op) (now : Nat) (db : Db), Db.WF db → Db.WF (SqlStep op now db).2) ∧
    (∀ (op : Op) (now : Nat) (db : Db),
      (SqlStep op now db).2.rows.map UserRow.id = db.rows.map UserRow.id ∨
      (SqlStep op now db).2.rows.map UserRow.id =
        db.rows.map UserRow.id ++ [db.nextId]) ∧
    (∀ (d : UserDataIn) (now : Nat) (st : Mem), d.id = none →
      (MemUser.new d now st).1.id = some st.nextId ∧
      (MemUser.new d now st).2.users = st.users) := by
  refine ⟨?_, ?_, by decide, wf_step, ids_step, ?_⟩
  · intro d now h
    simp [User.new, h]
  · intro u now db h
    constructor <;> simp [User.save, h, User.insertRow]
  · intro d now st h
    constructor <;> simp [MemUser.new, h]


/-- C6 counterexample: constructing (without persisting) an in-memory record
on the fresh store already carries identifier 1 while the store is still
empty — the identifier is not "absent until the record is first persisted". -/
theorem c6_counterexample :
    (MemUser.new c6din 0 mem0).1.id = some 1 ∧
    (MemUser.new c6din 0 mem0).2.users = [] := by decide

/-- Witness for `c6_identifier_lifecycle`: the first save on the fresh store
assigns identifier 1. -/
theorem c6_identifier_lifecycle_witness :
    (User.save (User.new c6din 0) 0 db0).1.id = some 1 :=
  (c6_identifier_lifecycle.2.1 (User.new c6din 0) 0 db0
    (c6_identifier_lifecycle.1 c6din 0 rfl)).1

/-! ### C9 — the two model variants -/

lemma memStep_create_eq (d : UserCreateInput) (now : Nat) (st : Mem) :
    MemStep (Op.create d) now st =
      (OpRes.created (MemUser.create d now st).1, (MemUser.create d now st).2) := by
  rcases h : MemUser.create d now st with ⟨r, st'⟩
  simp [MemStep, h]

lemma memStep_delete_eq (i now : Nat) (st : Mem) :
    MemStep (Op.delete i) now st =
      (OpRes.boolRes (MemUser.delete i now st).1, (MemUser.delete i now st).2) := by
  rcases h : MemUser.delete i now st with ⟨b, st'⟩
  simp [MemStep, h]

lemma goodAge_id (a : Option JNum) (h : goodAge a = true) : jsNumOrNone a = a := by
  cases a with
  | none => rfl
  | some x =>
      cases x with
      | nan => simp [goodAge] at h
      | num q =>
          have hq : q ≠ 0 := by simpa [goodAge] using h
          simp [jsNumOrNone, hq]

lemma pm_active :
    ((fun u : UserData => u.is_active) ∘ User.ofRow)
      = fun r : UserRow => r.is_active == 1 := by
  funext r
  show (User.ofRow r).is_active = _
  rw [ofRow_is_active]
  by_cases h : r.is_active = 1 <;> simp [h]

lemma pm_findById (i : Nat) :
    ((fun u : UserData => u.id == some i && u.is_active) ∘ User.ofRow)
      = fun r : UserRow => r.id == i && r.is_active == 1 := by
  funext r
  show ((User.ofRow r).id == some i && (User.ofRow r).is_active) = _
  rw [ofRow_id, ofRow_is_active]
  by_cases h1 : r.id = i <;> by_cases h2 : r.is_active = 1 <;> simp [h1, h2]

lemma pm_findByEmail (e : Str) :
    ((fun u : UserData => sLower u.email == sLower e && u.is_active) ∘ User.ofRow)
      = fun r : UserRow => sLower r.email == sLower e && r.is_active == 1 := by
  funext r
  show (sLower (User.ofRow r).email == sLower e && (User.ofRow r).is_active) = _
  rw [ofRow_email, ofRow_is_active]
  by_cases h2 : r.is_active = 1 <;> simp [h2]

lemma pm_email (e : Str) :
    ((fun u : UserData => sLower u.email == sLower e) ∘ User.ofRow)
      = fun r : UserRow => sLower r.email == sLower e := by
  funext r
  show (sLower (User.ofRow r).email == sLower e) = _
  rw [ofRow_email]

lemma mem_findAll_rel (db : Db) (st : Mem)
    (h : st.users = db.rows.map User.ofRow) :
    MemUser.findAll st = User.findAll db := by
  rw [MemUser.findAll, h, List.filter_map, pm_active]
  rfl

lemma mem_findById_rel (i : Nat) (db : Db) (st : Mem)
    (h : st.users = db.rows.map User.ofRow) :
    MemUser.findById i st = User.findById i db := by
  rw [MemUser.findById, h, List.find?_map, pm_findById]
  rfl

lemma mem_findByEmail_rel (e : Str) (db : Db) (st : Mem)
    (h : st.users = db.rows.map User.ofRow) :
    MemUser.findByEmail e st = User.findByEmail e db := by
  rw [MemUser.findByEmail, h, List.find?_map, pm_findByEmail]
  rfl

lemma any_map' (f : β → α) (l : List β) (p : α → Bool) :
    (l.map f).any p = l.any (p ∘ f) := by
  induction l with
  | nil => rfl
  | cons x xs ih => simp [List.any_cons, ih]

lemma mem_emailExists_rel (e : Str) (db : Db) (st : Mem)
    (h : st.users = db.rows.map User.ofRow) :
    MemUser.emailExists e st = User.emailExists e db := by
  rw [MemUser.emailExists, h, any_map', pm_email]
  rfl

lemma mem_count_rel (db : Db) (st : Mem)
    (h : st.users = db.rows.map User.ofRow) :
    MemUser.count st = User.count db := by
  rw [MemUser.count, h, List.filter_map, pm_active, List.length_map]
  rfl

lemma modifyFirst_delete_agree (i now : Nat) :
    ∀ rows : List UserRow,
      (rows.map UserRow.id).Pairwise (· < ·) →
      (rows.find? (fun r => r.id == i && r.is_active == 1)).isSome = true →
      modifyFirst (fun u : UserData => u.id == some i && u.is_active)
          (fun u => { u with is_active := false, updated_at := now })
          (rows.map User.ofRow)
        = (rows.map fun r =>
            if r.id = i then { r with is_active := 0, updated_at := now } else r).map
            User.ofRow := by
  intro rows
  induction rows with
  | nil => intro _ hf; simp at hf
  | cons x xs ih =>
      intro hpair hf
      rw [List.map_cons, List.pairwise_cons] at hpair
      obtain ⟨hlt, hpairt⟩ := hpair
      by_cases hxi : x.id = i
      · have htail : ∀ r ∈ xs, r.id ≠ i := by
          intro r hr
          have := hlt r.id (List.mem_map_of_mem UserRow.id hr)
          omega
        have hx1 : x.is_active = 1 := by
          by_contra hne
          have hpx : ¬ ((fun r : UserRow => r.id == i && r.is_active == 1) x = true) := by
            simp [hne]
          rw [List.find?_cons_of_neg xs hpx, List.find?_isSome] at hf
          obtain ⟨r, hr, hpr⟩ := hf
          simp only [Bool.and_eq_true, beq_iff_eq] at hpr
          exact htail r hr hpr.1
        have hpm : ((User.ofRow x).id == some i && (User.ofRow x).is_active) = true := by
          rw [ofRow_id, ofRow_is_active]
          simp [hxi, hx1]
        have htail2 : (xs.map fun r =>
            if r.id = i then { r with is_active := 0, updated_at := now } else r) = xs := by
          rw [List.map_congr_left fun r hr => if_neg (htail r hr)]
          exact List.map_id' xs
        have hhead : ({ User.ofRow x with is_active := false, updated_at := now } : UserData)
            = User.ofRow { x with is_active := 0, updated_at := now } := rfl
        rw [List.map_cons, List.map_cons, if_pos hxi, htail2, List.map_cons]
        simp only [modifyFirst, hpm, if_true]
        rw [hhead]
      · have hpx : ¬ ((fun r : UserRow => r.id == i && r.is_active == 1) x = true) := by
          simp [hxi]
        rw [List.find?_cons_of_neg xs hpx] at hf
        have hpm : ((User.ofRow x).id == some i && (User.ofRow x).is_active) = false := by
          rw [ofRow_id]
          simp [hxi]
        rw [List.map_cons, List.map_cons, if_neg hxi, List.map_cons]
        simp only [modifyFirst, hpm, Bool.false_eq_true, if_false]
        rw [ih hpairt hf]


lemma step_rel (op : Op) (now : Nat) (db : Db) (st : Mem) (hrel : SqlMemRel db st)
    (hok : OkStep op now db = true) :
    (MemStep op now st).1 = (SqlStep op now db).1 ∧
    SqlMemRel (SqlStep op now db).2 (MemStep op now st).2 := by
  obtain ⟨husers, hnext, hwf⟩ := hrel
  cases op with
  | findAll =>
      exact ⟨by simp [MemStep, SqlStep, mem_findAll_rel db st husers],
        husers, hnext, hwf⟩
  | findById i =>
      exact ⟨by simp [MemStep, SqlStep, mem_findById_rel i db st husers],
        husers, hnext, hwf⟩
  | findByEmail e =>
      exact ⟨by simp [MemStep, SqlStep, mem_findByEmail_rel e db st husers],
        husers, hnext, hwf⟩
  | emailExists e =>
      exact ⟨by simp [MemStep, SqlStep, mem_emailExists_rel e db st husers],
        husers, hnext, hwf⟩
  | count =>
      exact ⟨by simp [MemStep, SqlStep, mem_count_rel db st husers],
        husers, hnext, hwf⟩
  | create d =>
      have hok2 : (goodAge d.age && (User.create d now db).1.success) = true := hok
      rw [Bool.and_eq_true] at hok2
      obtain ⟨hgood, hsucc⟩ := hok2
      have hv : (User.validate (User.candidate d now)).valid = true := by
        by_contra hnv
        rw [Bool.not_eq_true] at hnv
        rw [create_invalid_state d now db hnv] at hsucc
        simp at hsucc
      have hex : User.emailExists d.email db = false := by
        by_contra hnex
        rw [Bool.not_eq_false] at hnex
        rw [create_conflict_state d now db hv hnex] at hsucc
        simp at hsucc
      have hv2 : (MemUser.validate (MemUser.freshUser d now st)).valid = true := hv
      simp only [MemUser.freshUser] at hv2
      have hnotin : (st.users.any fun x => x.id == some st.nextId) = false := by
        rw [husers, List.any_eq_false]
        intro x hx
        obtain ⟨r, hr, rfl⟩ := List.mem_map.mp hx
        have hb := (hwf.2.1 r hr).2
        rw [ofRow_id]
        simp only [beq_iff_eq, Option.some_inj, hnext]
        omega
      have hex3 : (st.users.any fun u => sLower u.email == sLower d.email) = false := by
        have h2 := mem_emailExists_rel d.email db st husers
        rw [MemUser.emailExists] at h2
        rw [h2]
        exact hex
      have hcm : MemUser.create d now st =
          ({ success := true, user := some (MemUser.freshUser d now st),
             errors := none },
           { users := st.users ++ [MemUser.freshUser d now st],
             nextId := st.nextId + 1 }) := by
        simp [MemUser.create, MemUser.new, goodAge_id d.age hgood,
          MemUser.freshUser, hv2, MemUser.emailExists, hex3, MemUser.save, hnotin]
      rw [sqlStep_create_eq, memStep_create_eq,
        create_success_state' d now db hv hex, hcm]
      simp only [SqlMemRel]
      refine ⟨?_, ?_, ?_, ?_⟩
      · simp [User.candidate, User.new, MemUser.freshUser, hnext]
      · show st.users ++ [_] = (db.rows ++ [User.insertedRow d now db]).map User.ofRow
        rw [List.map_append, husers]
        congr 1
        simp [User.ofRow, User.new, User.fromRow, User.insertedRow, User.candidate,
          MemUser.freshUser, jsOrNone_idem, hnext]
      · show st.nextId + 1 = db.nextId + 1
        rw [hnext]
      · have hwf2 := wf_step (Op.create d) now db hwf
        rw [sqlStep_create_eq, create_success_state' d now db hv hex] at hwf2
        exact hwf2
  | delete i =>
      rw [sqlStep_delete_eq, memStep_delete_eq]
      have hany : (st.users.any fun u => u.id == some i && u.is_active)
          = (db.rows.find? fun r => r.id == i && r.is_active == 1).isSome := by
        rw [husers, any_map', pm_findById]
        cases hfd : (db.rows.find? fun r => r.id == i && r.is_active == 1) with
        | none =>
            rw [List.find?_eq_none] at hfd
            simp only [Option.isSome_none]
            rw [List.any_eq_false]
            intro x hx
            exact hfd x hx
        | some r0 =>
            simp only [Option.isSome_some]
            rw [List.any_eq_true]
            have hp := List.find?_some hfd
            exact ⟨r0, List.mem_of_find?_eq_some hfd, hp⟩
      cases hf : User.findById i db with
      | none =>
          have hfd : (db.rows.find? fun r => r.id == i && r.is_active == 1) = none := by
            rw [User.findById, Option.map_eq_none'] at hf
            exact hf
          have hanyf : (st.users.any fun u => u.id == some i && u.is_active) = false := by
            rw [hany, hfd]
            rfl
          rw [delete_not_found i now db hf]
          simp only [MemUser.delete, hanyf, Bool.false_eq_true, if_false]
          exact ⟨trivial, husers, hnext, hwf⟩
      | some u =>
          have hfd : (db.rows.find? fun r => r.id == i && r.is_active == 1).isSome
              = true := by
            have hf2 := hf
            rw [User.findById, Option.map_eq_some'] at hf2
            obtain ⟨r0, hr0, -⟩ := hf2
            rw [hr0]
            rfl
          have hanyt : (st.users.any fun u => u.id == some i && u.is_active) = true := by
            rw [hany, hfd]
          obtain ⟨hres, hnid, hrows⟩ := delete_found_rows i now db u hwf hf
          simp only [MemUser.delete, hanyt, if_true, SqlMemRel]
          refine ⟨?_, ?_, ?_, ?_⟩
          · simp [hres]
          · show modifyFirst _ _ st.users = _
            rw [husers, hrows]
            exact modifyFirst_delete_agree i now db.rows hwf.2.2.1 hfd
          · show st.nextId = (User.delete i now db).2.nextId
            rw [hnid]
            exact hnext
          · have hwf2 := wf_step (Op.delete i) now db hwf
            rw [sqlStep_delete_eq] at hwf2
            exact hwf2

lemma run_rel : ∀ (ops : List (Op × Nat)) (db : Db) (st : Mem),
    SqlMemRel db st → OkTrace ops db = true →
    (MemRun ops st).1 = (SqlRun ops db).1 ∧
    SqlMemRel (SqlRun ops db).2 (MemRun ops st).2 := by
  intro ops
  induction ops with
  | nil => exact fun db st hrel _ => ⟨rfl, hrel⟩
  | cons p rest ih =>
      obtain ⟨op, now⟩ := p
      intro db st hrel hok
      have hok' : (OkStep op now db && OkTrace rest (SqlStep op now db).2) = true := hok
      rw [Bool.and_eq_true] at hok'
      obtain ⟨hok1, hok2⟩ := hok'
      obtain ⟨hres, hrel'⟩ := step_rel op now db st hrel hok1
      rcases hms : MemStep op now st with ⟨rm, st'⟩
      rcases hss : SqlStep op now db with ⟨rs, db'⟩
      rw [hms] at hres hrel'
      rw [hss] at hres hrel' hok2
      obtain ⟨ihres, ihrel⟩ := ih db' st' hrel' hok2
      constructor
      · show (MemRun ((op, now) :: rest) st).1 = (SqlRun ((op, now) :: rest) db).1
        rw [MemRun, SqlRun, hms, hss]
        show rm :: (MemRun rest st').1 = rs :: (SqlRun rest db').1
        have h1 : rm = rs := hres
        rw [h1, ihres]
      · show SqlMemRel (SqlRun ((op, now) :: rest) db).2 (MemRun ((op, now) :: rest) st).2
        rw [MemRun, SqlRun, hms, hss]
        show SqlMemRel (SqlRun rest db').2 (MemRun rest st').2
        exact ihrel

/-- The initial states are coupled. -/
lemma rel_init : SqlMemRel db0 mem0 := ⟨rfl, rfl, by decide⟩

/-- C9 (amended): starting from the fresh stores, the SQLite-backed and the
in-memory `User` models are observationally equivalent — identical operation
results and identical reconstructed record lists — for every trace of
create/findAll/findById/findByEmail/emailExists/delete/count calls in which
each `create` succeeds and carries an absent or non-falsy age.  (Outside this
class the variants genuinely diverge: the in-memory constructor coerces falsy
ages — `0`, `NaN` — to null via `data.age || null`, and consumes a fresh
identifier even for a create that is subsequently rejected.) -/
theorem c9_variant_equivalence (ops : List (Op × Nat))
    (hok : OkTrace ops db0 = true) :
    (MemRun ops mem0).1 = (SqlRun ops db0).1 ∧
    (MemRun ops mem0).2.users = (SqlRun ops db0).2.rows.map User.ofRow ∧
    (MemRun ops mem0).2.nextId = (SqlRun ops db0).2.nextId := by
  obtain ⟨hres, hrel⟩ := run_rel ops db0 mem0 rel_init hok
  exact ⟨hres, hrel.1, hrel.2.1⟩


/-- C9 counterexample: the claim includes age 0 among the edge inputs on
which the variants must agree, but on `create` with age 0 the SQLite model
stores age 0 (`data.age ?? null`) while the in-memory model stores null
(`data.age || null`), so the very first operation already returns visibly
different records. -/
theorem c9_counterexample :
    (MemRun [(Op.create c9in, 3)] mem0).1 ≠ (SqlRun [(Op.create c9in, 3)] db0).1 := by
  decide

/-- Witness for `c9_variant_equivalence` on a four-operation trace. -/
theorem c9_variant_equivalence_witness :
    OkTrace [(Op.create c3in, 3), (Op.findAll, 4), (Op.delete 1, 5), (Op.count, 6)] db0 = true ∧
    (MemRun [(Op.create c3in, 3), (Op.findAll, 4), (Op.delete 1, 5), (Op.count, 6)] mem0).1 =
      (SqlRun [(Op.create c3in, 3), (Op.findAll, 4), (Op.delete 1, 5), (Op.count, 6)] db0).1 :=
  ⟨by decide,
   (c9_variant_equivalence
     [(Op.create c3in, 3), (Op.findAll, 4), (Op.delete 1, 5), (Op.count, 6)]
     (by decide)).1⟩
